import Mathlib

/-!
# Verification of the project-management CLI entity core

A shallow embedding of the in-memory entity registries of the repository
(`src/models/user.py`, `src/models/project.py`, `src/models/task.py`) and its
persistence adapter (`src/utils/file_handler.py`), together with theorems
settling the specification claims about identity assignment, relationship
maintenance, validation, and JSON load/save round-tripping.

Modelling conventions:
* A Python `dict` (insertion-ordered) becomes an association list `List (κ × α)`
  where assignment to an existing key replaces the value in place and
  assignment to a fresh key appends at the end, exactly as in CPython.
* Python class-level mutable state (`_all_users`, `_next_id`) becomes an
  explicit state record threaded through the operations.
* Python `x or y` truthiness on `Optional[int]` / `Optional[str]` /
  `Optional[list]` arguments is modelled by explicit helpers (`0`, `""` and
  `[]` are falsy).
* A method that can raise returns `Except String _`; when Python would leave
  class-level state mutated even though the call raised, the model returns the
  error together with the resulting state.
* `datetime.now().isoformat()` is an input (`now : String`) since the model is
  pure; timestamps are otherwise ordinary strings.
-/

set_option autoImplicit false
set_option linter.unusedSectionVars false

namespace PMCli

/-! ## Insertion-ordered dictionaries (CPython `dict` semantics) -/

variable {κ : Type} {α : Type} [DecidableEq κ]

/-- Membership test for a key in an association list (`k in d`). -/
def dmem (k : κ) : List (κ × α) → Bool
  | [] => false
  | p :: d => p.1 = k || dmem k d

/-- Lookup (`d.get(k)` / `d[k]`): first entry with the key. -/
def dget (k : κ) : List (κ × α) → Option α
  | [] => none
  | p :: d => if p.1 = k then some p.2 else dget k d

/-- Replace the value at an existing key, keeping its position. -/
def dset (k : κ) (v : α) : List (κ × α) → List (κ × α)
  | [] => []
  | p :: d => if p.1 = k then (k, v) :: d else p :: dset k v d

/-- `d[k] = v` in CPython: replace in place when the key exists, else append. -/
def dput (k : κ) (v : α) (d : List (κ × α)) : List (κ × α) :=
  if dmem k d then dset k v d else d ++ [(k, v)]

/-- The keys of an association list, in order. -/
def dkeys (d : List (κ × α)) : List κ := d.map (·.1)

/-- Decidable equality for `Except`, so that concrete runs of fallible
operations can be settled by `decide`. -/
def exceptDecEq {ε α : Type} [DecidableEq ε] [DecidableEq α] :
    DecidableEq (Except ε α) := fun a b =>
  match a, b with
  | .error e, .error e' =>
      if h : e = e' then isTrue (by rw [h]) else isFalse (by simp [h])
  | .ok x, .ok y =>
      if h : x = y then isTrue (by rw [h]) else isFalse (by simp [h])
  | .error _, .ok _ => isFalse (by simp)
  | .ok _, .error _ => isFalse (by simp)

instance {ε α : Type} [DecidableEq ε] [DecidableEq α] : DecidableEq (Except ε α) :=
  exceptDecEq

/-! ## Python string primitives

The embedding works on `String.data` (the character list) with structurally
recursive helpers, mirroring `str.strip`, `str.split`, `in` and `int`
conversion. -/

/-- The ASCII whitespace stripped by `str.strip()`. -/
def isPySpace (c : Char) : Bool :=
  c = ' ' ∨ c = '\t' ∨ c = '\n' ∨ c = '\r' ∨ c = '\x0b' ∨ c = '\x0c'

/-- `str.strip()`: drop whitespace from both ends. -/
def pyStrip (s : String) : String :=
  ⟨(((s.data.dropWhile isPySpace).reverse).dropWhile isPySpace).reverse⟩

/-- `c in s` for a single character. -/
def pyContains (s : String) (c : Char) : Bool :=
  s.data.contains c

/-- `len(s)`. -/
def pyLen (s : String) : Nat :=
  s.data.length

/-- Digit value of a character, `none` for a non-digit. -/
def digitVal (c : Char) : Option Nat :=
  if '0' ≤ c ∧ c ≤ '9' then some (c.toNat - 48) else none

/-- Accumulating decimal reading. -/
def charsToNatAux : List Char → Nat → Option Nat
  | [], acc => some acc
  | c :: l, acc =>
    match digitVal c with
    | none => none
    | some d => charsToNatAux l (acc * 10 + d)

/-- Read an all-digit, non-empty character list as a `Nat`. -/
def charsToNat (l : List Char) : Option Nat :=
  if l = [] then none else charsToNatAux l 0

/-- Decimal digits of a `Nat`, most significant first (fuel-structured so
that the kernel can evaluate it). -/
def natToDigitsAux : Nat → Nat → List Char
  | 0, _ => []
  | fuel + 1, n =>
    if n < 10 then [Char.ofNat (48 + n)]
    else natToDigitsAux fuel (n / 10) ++ [Char.ofNat (48 + n % 10)]

/-- Decimal digits of a `Nat`. -/
def natToDigits (n : Nat) : List Char :=
  natToDigitsAux (n + 1) n

/-- Split a character list on a separator character (`str.split(sep)` for the
single-character separators this program uses). -/
def splitOnCharAux (sep : Char) : List Char → List Char → List (List Char)
  | [], acc => [acc.reverse]
  | c :: l, acc =>
    if c = sep then acc.reverse :: splitOnCharAux sep l []
    else splitOnCharAux sep l (c :: acc)

/-- Split on a separator character. -/
def splitOnChar (sep : Char) (l : List Char) : List (List Char) :=
  splitOnCharAux sep l []

/-! ## Python truthiness helpers -/

/-- `x or default` on an `Optional[int]`: `None` and `0` are falsy. -/
def pyOrNat (x : Option Nat) (default : Nat) : Nat :=
  match x with
  | none => default
  | some 0 => default
  | some n => n

/-- `task_id or cls._get_next_id()`: the counter advances only when the
explicit id is falsy (`None` or `0`), reflecting Python short-circuiting.
Returns the id used and the new counter. -/
def pyIdAlloc (explicit : Option Nat) (next : Nat) : Nat × Nat :=
  match explicit with
  | none => (next, next + 1)
  | some 0 => (next, next + 1)
  | some n => (n, next)

/-- `x or default` on an `Optional[str]`: `None` and `""` are falsy. -/
def pyOrStr (x : Option String) (default : String) : String :=
  match x with
  | none => default
  | some s => if s = "" then default else s

/-- `x or []` on an `Optional[list]`: `None` and `[]` are both sent to `[]`,
so this is just `Option.getD _ []`. -/
def pyOrList (x : Option (List Nat)) : List Nat :=
  x.getD []

/-! ## `src/models/user.py` -/

/-- A `User` instance: id, raw name and email (the constructor stores them
without validation), creation timestamp, owned project ids. -/
structure User where
  user_id : Nat
  name : String
  email : String
  created_at : String
  projects : List Nat
  deriving DecidableEq, Repr

/-- The class-level registry state of `User`: `_all_users` and `_next_id`. -/
structure UserState where
  registry : List (Nat × User)
  next_id : Nat
  deriving DecidableEq, Repr

/-- `User.__init__`: allocates the id (`user_id or User._get_next_id()`),
assigns `_name` and `_email` directly (bypassing the validating setters),
defaults `created_at` and `projects`, then registers the instance under its id.
It contains no validation and cannot raise. -/
def User.init (name email : String) (user_id : Option Nat)
    (created_at : Option String) (projects : Option (List Nat))
    (now : String) (s : UserState) : User × UserState :=
  let (uid, next') := pyIdAlloc user_id s.next_id
  let u : User :=
    { user_id := uid
      name := name
      email := email
      created_at := pyOrStr created_at now
      projects := pyOrList projects }
  (u, { registry := dput uid u s.registry, next_id := next' })

/-- `User.name` setter: rejects an empty string or a stripped length `< 2`,
stores the stripped value. -/
def User.setName (u : User) (value : String) : Except String User :=
  if value = "" ∨ pyLen (pyStrip value) < 2 then
    .error "Name must be at least 2 characters long"
  else
    .ok { u with name := pyStrip value }

/-- `User.email` setter: requires an `@` and a `.`, stores the stripped
value. -/
def User.setEmail (u : User) (value : String) : Except String User :=
  if ¬ (pyContains value '@') ∨ ¬ (pyContains value '.') then
    .error "Invalid email format"
  else
    .ok { u with email := pyStrip value }

/-- `User.create`: factory, `cls(name, email)` with all defaults. -/
def User.create (name email : String) (now : String) (s : UserState) :
    User × UserState :=
  User.init name email none none none now s

/-- `User.get_all`: the live users in insertion order. -/
def User.get_all (s : UserState) : List User :=
  s.registry.map (·.2)

/-- `User.find_by_id`: `cls._all_users.get(user_id)`. -/
def User.find_by_id (user_id : Nat) (s : UserState) : Option User :=
  dget user_id s.registry

/-- `User.add_project`: append the id unless already present. -/
def User.add_project (u : User) (project_id : Nat) : User :=
  if project_id ∈ u.projects then u
  else { u with projects := u.projects ++ [project_id] }

/-- `User.remove_project`: remove the first occurrence when present. -/
def User.remove_project (u : User) (project_id : Nat) : User :=
  if project_id ∈ u.projects then { u with projects := u.projects.erase project_id }
  else u

/-! ## `src/utils/file_handler.py` -/

/-- The content of a data file: either syntactically malformed JSON or a
well-formed array of flat records of type `α`. -/
inductive FileContent (α : Type) where
  | malformed (raw : String)
  | json (records : List α)
  deriving DecidableEq

/-- The data directory: file name mapped to content; absent name = absent
file. -/
def FS (α : Type) : Type := List (String × FileContent α)

/-- `FileHandler.load_data`: absent file returns `[]`; `json.JSONDecodeError`
(and any other exception) is caught, logged, and returns `[]`; a well-formed
file returns its record list. -/
def FileHandler.load_data {α : Type} (fs : FS α) (filename : String) : List α :=
  match dget filename fs with
  | none => []
  | some (.malformed _) => []
  | some (.json records) => records

/-- `FileHandler.save_data`: writes the records and returns `True`, or catches
the I/O failure (modelled by the `ioError` flag of the environment), logs it,
leaves the file untouched and returns `False` — it never raises. -/
def FileHandler.save_data {α : Type} (ioError : Bool) (fs : FS α)
    (filename : String) (records : List α) : Bool × FS α :=
  if ioError then (false, fs)
  else (true, dput filename (FileContent.json records) fs)

/-! ## User serialization (`to_dict` / `from_dict` / `load_all` / `save_all`) -/

/-- A flat JSON record for a user: each field is `some _` when the key is
present in the JSON object. `name`, `email` and `user_id` are accessed with
`data[...]` (a missing key raises `KeyError`); `created_at` and `projects`
with `data.get(...)`. -/
structure UserRecord where
  user_id : Option Nat
  name : Option String
  email : Option String
  created_at : Option String
  projects : Option (List Nat)
  deriving DecidableEq, Repr

/-- `User.to_dict`: all five fields, keys always present. -/
def User.to_dict (u : User) : UserRecord :=
  { user_id := some u.user_id
    name := some u.name
    email := some u.email
    created_at := some u.created_at
    projects := some u.projects }

/-- `User.from_dict`: `data['name']`, `data['email']`, `data['user_id']`
(a missing one raises `KeyError`), `data.get('created_at')`,
`data.get('projects', [])`, then the constructor. On success the constructed
user is registered by `__init__`. -/
def User.from_dict (r : UserRecord) (now : String) (s : UserState) :
    Except String (User × UserState) :=
  match r.name, r.email, r.user_id with
  | some n, some e, uid@(some _) =>
      .ok (User.init n e uid r.created_at r.projects now s)
  | _, _, _ => .error "KeyError"

/-- The loop body of `User.load_all`: `from_dict` (which registers via
`__init__`), then `cls._all_users[user.user_id] = user` again, then the
counter bump `if user.user_id >= cls._next_id`. An exception from `from_dict`
propagates, leaving the state as mutated so far. -/
def User.loadLoop (now : String) : List UserRecord → UserState →
    Option String × UserState
  | [], s => (none, s)
  | r :: rs, s =>
    match User.from_dict r now s with
    | .error e => (some e, s)
    | .ok (u, s') =>
        User.loadLoop now rs
          { registry := dput u.user_id u s'.registry
            next_id := if s'.next_id ≤ u.user_id then u.user_id + 1 else s'.next_id }

/-- `User.load_all`: reads `users.json`, clears the registry and resets the
counter to 1, then runs the loop. The prior state `s` is discarded (the
registry is replaced wholesale). On an exception the partially rebuilt state
remains. -/
def User.load_all (fs : FS UserRecord) (now : String) (_s : UserState) :
    Option String × UserState :=
  User.loadLoop now (FileHandler.load_data fs "users.json")
    { registry := [], next_id := 1 }

/-- `User.save_all`: serializes the live users in insertion order and hands
them to `FileHandler.save_data` (whose boolean result is dropped). -/
def User.save_all (ioError : Bool) (fs : FS UserRecord) (s : UserState) :
    FS UserRecord :=
  (FileHandler.save_data ioError fs "users.json"
    (s.registry.map (fun p => p.2.to_dict))).2

/-! ## `src/models/task.py` -/

/-- `Task.VALID_STATUSES`. -/
def VALID_STATUSES : List String := ["pending", "in_progress", "completed"]

/-- A `Task` instance. -/
structure Task where
  task_id : Nat
  title : String
  description : String
  status : String
  project_id : Nat
  assigned_users : List Nat
  created_at : String
  deriving DecidableEq, Repr

/-- The class-level registry state of `Task`: `_all_tasks` and `_next_id`. -/
structure TaskState where
  registry : List (Nat × Task)
  next_id : Nat
  deriving DecidableEq, Repr

/-- `Task.__init__`: allocates the id first (`task_id or Task._get_next_id()`,
advancing the counter when auto-assigned), assigns every field, THEN validates
the status — raising `ValueError` before the instance is registered, so a
failed construction leaves the counter advanced but the registry untouched.
On success the instance is registered under its id. -/
def Task.init (title description : String) (project_id : Nat)
    (task_id : Option Nat) (status : String)
    (assigned_users : Option (List Nat)) (created_at : Option String)
    (now : String) (s : TaskState) : Except String Task × TaskState :=
  let (tid, next') := pyIdAlloc task_id s.next_id
  let t : Task :=
    { task_id := tid
      title := title
      description := description
      status := status
      project_id := project_id
      assigned_users := pyOrList assigned_users
      created_at := pyOrStr created_at now }
  if status ∈ VALID_STATUSES then
    (.ok t, { registry := dput tid t s.registry, next_id := next' })
  else
    (.error "Invalid status. Must be one of: pending, in_progress, completed",
     { registry := s.registry, next_id := next' })

/-- `Task.status` setter: rejects anything outside `VALID_STATUSES` before
assigning, so on failure the task is unchanged. -/
def Task.setStatus (t : Task) (value : String) : Except String Task :=
  if value ∈ VALID_STATUSES then .ok { t with status := value }
  else .error "Invalid status. Must be one of: pending, in_progress, completed"

/-- `Task.mark_complete`: `self.status = 'completed'` through the setter. -/
def Task.mark_complete (t : Task) : Except String Task :=
  Task.setStatus t "completed"

/-- `Task.is_completed`: `self._status == 'completed'`. -/
def Task.is_completed (t : Task) : Bool :=
  t.status = "completed"

/-- `Task.create`: factory, `cls(title, description, project_id)` with the
default status `'pending'`. -/
def Task.create (title description : String) (project_id : Nat)
    (now : String) (s : TaskState) : Except String Task × TaskState :=
  Task.init title description project_id none "pending" none none now s

/-- `Task.get_all`. -/
def Task.get_all (s : TaskState) : List Task :=
  s.registry.map (·.2)

/-- `Task.find_by_id`: `cls._all_tasks.get(task_id)`. -/
def Task.find_by_id (task_id : Nat) (s : TaskState) : Option Task :=
  dget task_id s.registry

/-- `Task.assign_user`: append unless already present. -/
def Task.assign_user (t : Task) (user_id : Nat) : Task :=
  if user_id ∈ t.assigned_users then t
  else { t with assigned_users := t.assigned_users ++ [user_id] }

/-- `Task.unassign_user`: remove the first occurrence when present. -/
def Task.unassign_user (t : Task) (user_id : Nat) : Task :=
  if user_id ∈ t.assigned_users then
    { t with assigned_users := t.assigned_users.erase user_id }
  else t

/-- A flat JSON record for a task. `title`, `description`, `project_id` and
`task_id` are required (`data[...]`); `status`, `assigned_users`, `created_at`
use `data.get(...)` with defaults. -/
structure TaskRecord where
  task_id : Option Nat
  title : Option String
  description : Option String
  status : Option String
  project_id : Option Nat
  assigned_users : Option (List Nat)
  created_at : Option String
  deriving DecidableEq, Repr

/-- `Task.to_dict`: all seven fields, keys always present. -/
def Task.to_dict (t : Task) : TaskRecord :=
  { task_id := some t.task_id
    title := some t.title
    description := some t.description
    status := some t.status
    project_id := some t.project_id
    assigned_users := some t.assigned_users
    created_at := some t.created_at }

/-- `Task.from_dict`: required keys raise `KeyError` when missing; `status`
defaults to `'pending'`; then the (validating) constructor runs. -/
def Task.from_dict (r : TaskRecord) (now : String) (s : TaskState) :
    Except String (Except String Task × TaskState) :=
  match r.title, r.description, r.project_id, r.task_id with
  | some ti, some de, some pid, tid@(some _) =>
      .ok (Task.init ti de pid tid (r.status.getD "pending")
            r.assigned_users r.created_at now s)
  | _, _, _, _ => .error "KeyError"

/-- The loop body of `Task.load_all`; any exception (from a missing key or
from the constructor's status validation) propagates, leaving the state as
mutated so far. -/
def Task.loadLoop (now : String) : List TaskRecord → TaskState →
    Option String × TaskState
  | [], s => (none, s)
  | r :: rs, s =>
    match Task.from_dict r now s with
    | .error e => (some e, s)
    | .ok (.error e, s') => (some e, s')
    | .ok (.ok t, s') =>
        Task.loadLoop now rs
          { registry := dput t.task_id t s'.registry
            next_id := if s'.next_id ≤ t.task_id then t.task_id + 1 else s'.next_id }

/-- `Task.load_all`: reads `tasks.json`, clears, resets the counter to 1,
loops. -/
def Task.load_all (fs : FS TaskRecord) (now : String) (_s : TaskState) :
    Option String × TaskState :=
  Task.loadLoop now (FileHandler.load_data fs "tasks.json")
    { registry := [], next_id := 1 }

/-- `Task.save_all`. -/
def Task.save_all (ioError : Bool) (fs : FS TaskRecord) (s : TaskState) :
    FS TaskRecord :=
  (FileHandler.save_data ioError fs "tasks.json"
    (s.registry.map (fun p => p.2.to_dict))).2

/-! ## `datetime` values and ISO-8601 text

`Project` stores `_due_date` as a `datetime.datetime` (produced by
`dateutil.parser.parse`) and serializes it with `.isoformat()`. The value is
embedded as an explicit date-time record; `isoformat` renders the canonical
ISO form exactly as CPython does (fractional part omitted when the
microsecond field is zero), and `parseDT` embeds `dateutil.parser.parse`
restricted to the ISO strings that arise in this program. -/

/-- A `datetime.datetime` value (naive, as in the source). -/
structure PyDateTime where
  year : Nat
  month : Nat
  day : Nat
  hour : Nat
  minute : Nat
  second : Nat
  microsecond : Nat
  deriving DecidableEq, Repr

/-- Decimal digits left-padded with zeros to the given width. -/
def padZeros (width n : Nat) : List Char :=
  let ds := natToDigits n
  List.replicate (width - ds.length) '0' ++ ds

/-- `datetime.isoformat()`: `YYYY-MM-DDTHH:MM:SS` with `.ffffff` appended only
when the microsecond field is nonzero. -/
def PyDateTime.isoformat (d : PyDateTime) : String :=
  ⟨padZeros 4 d.year ++ ['-'] ++ padZeros 2 d.month ++ ['-'] ++
    padZeros 2 d.day ++ ['T'] ++ padZeros 2 d.hour ++ [':'] ++
    padZeros 2 d.minute ++ [':'] ++ padZeros 2 d.second ++
    (if d.microsecond = 0 then [] else ['.'] ++ padZeros 6 d.microsecond)⟩

/-- The `YYYY-MM-DD` part. -/
def parseDatePart (l : List Char) : Option (Nat × Nat × Nat) :=
  match (splitOnChar '-' l).map charsToNat with
  | [some y, some m, some d] =>
      if 1 ≤ m ∧ m ≤ 12 ∧ 1 ≤ d ∧ d ≤ 31 then some (y, m, d) else none
  | _ => none

/-- The `SS` or `SS.ffffff` part. -/
def parseSecondsPart (l : List Char) : Option (Nat × Nat) :=
  match splitOnChar '.' l with
  | [ss] => (charsToNat ss).map (fun n => (n, 0))
  | [ss, ff] =>
      match charsToNat ss, charsToNat ff with
      | some n, some u => if ff.length = 6 then some (n, u) else none
      | _, _ => none
  | _ => none

/-- The `HH:MM:SS[.ffffff]` part. -/
def parseTimePart (l : List Char) : Option (Nat × Nat × Nat × Nat) :=
  match splitOnChar ':' l with
  | [hh, mm, rest] =>
      match charsToNat hh, charsToNat mm, parseSecondsPart rest with
      | some h, some m, some (sec, us) =>
          if h ≤ 23 ∧ m ≤ 59 ∧ sec ≤ 59 then some (h, m, sec, us) else none
      | _, _, _ => none
  | _ => none

/-- `dateutil.parser.parse` on the ISO strings this program produces and
accepts: a bare date (time defaults to midnight) or a full date-time.
`none` models the parser raising on invalid input. -/
def parseDT (s : String) : Option PyDateTime :=
  match splitOnChar 'T' s.data with
  | [ds] => (parseDatePart ds).map (fun (y, m, d) => ⟨y, m, d, 0, 0, 0, 0⟩)
  | [ds, ts] =>
      match parseDatePart ds, parseTimePart ts with
      | some (y, m, d), some (h, mi, sec, us) => some ⟨y, m, d, h, mi, sec, us⟩
      | _, _ => none
  | _ => none

/-! ## `src/models/project.py` -/

/-- A `Project` instance. -/
structure Project where
  project_id : Nat
  title : String
  description : String
  due_date : PyDateTime
  user_id : Nat
  tasks : List Nat
  created_at : String
  deriving DecidableEq, Repr

/-- The class-level registry state of `Project`. -/
structure ProjectState where
  registry : List (Nat × Project)
  next_id : Nat
  deriving DecidableEq, Repr

/-- `Project.__init__`: allocates the id first, assigns title and description,
then parses the due-date string (`parser.parse(due_date)`; every caller in the
repository passes a string, so the `isinstance` branch taken is the parsing
one) — a parse failure raises before the instance is registered. On success
the remaining fields are assigned and the instance registered. -/
def Project.init (title description : String) (due_date : String)
    (user_id : Nat) (project_id : Option Nat) (tasks : Option (List Nat))
    (created_at : Option String) (now : String) (s : ProjectState) :
    Except String Project × ProjectState :=
  let (pid, next') := pyIdAlloc project_id s.next_id
  match parseDT due_date with
  | none => (.error "ParserError: unknown date format",
             { registry := s.registry, next_id := next' })
  | some dd =>
      let p : Project :=
        { project_id := pid
          title := title
          description := description
          due_date := dd
          user_id := user_id
          tasks := pyOrList tasks
          created_at := pyOrStr created_at now }
      (.ok p, { registry := dput pid p s.registry, next_id := next' })

/-- `Project.create`: factory with all defaults. -/
def Project.create (title description : String) (due_date : String)
    (user_id : Nat) (now : String) (s : ProjectState) :
    Except String Project × ProjectState :=
  Project.init title description due_date user_id none none none now s

/-- `Project.find_by_id`. -/
def Project.find_by_id (project_id : Nat) (s : ProjectState) : Option Project :=
  dget project_id s.registry

/-- `Project.add_task`: append unless already present. -/
def Project.add_task (p : Project) (task_id : Nat) : Project :=
  if task_id ∈ p.tasks then p
  else { p with tasks := p.tasks ++ [task_id] }

/-- `Project.remove_task`: remove the first occurrence when present. -/
def Project.remove_task (p : Project) (task_id : Nat) : Project :=
  if task_id ∈ p.tasks then { p with tasks := p.tasks.erase task_id }
  else p

/-- `Project.get_completion_percentage`: `0.0` for an empty task-id list;
otherwise `total_tasks = len(self.tasks)` counts EVERY listed id (resolving
or not), while the completed count keeps only the ids that resolve in the
Task registry to a task with status `'completed'`. Exact rational arithmetic
stands in for Python floats (the division is exact at every value the claims
mention). -/
def Project.get_completion_percentage (p : Project) (ts : TaskState) : Rat :=
  if p.tasks = [] then 0
  else
    let total := p.tasks.length
    let completed := (p.tasks.filter (fun tid =>
      match Task.find_by_id tid ts with
      | some t => t.status = "completed"
      | none => false)).length
    (completed : Rat) / (total : Rat) * 100

/-- A flat JSON record for a project. `title`, `description`, `due_date`,
`user_id` and `project_id` are required (`data[...]`); `tasks` and
`created_at` use `data.get(...)`. -/
structure ProjectRecord where
  project_id : Option Nat
  title : Option String
  description : Option String
  due_date : Option String
  user_id : Option Nat
  tasks : Option (List Nat)
  created_at : Option String
  deriving DecidableEq, Repr

/-- `Project.to_dict`: all seven fields; `due_date` as
`self._due_date.isoformat()`. -/
def Project.to_dict (p : Project) : ProjectRecord :=
  { project_id := some p.project_id
    title := some p.title
    description := some p.description
    due_date := some p.due_date.isoformat
    user_id := some p.user_id
    tasks := some p.tasks
    created_at := some p.created_at }

/-- `Project.from_dict`: required keys raise `KeyError` when missing, then the
constructor (which re-parses the due-date string). -/
def Project.from_dict (r : ProjectRecord) (now : String) (s : ProjectState) :
    Except String (Except String Project × ProjectState) :=
  match r.title, r.description, r.due_date, r.user_id, r.project_id with
  | some ti, some de, some dd, some uid, pid@(some _) =>
      .ok (Project.init ti de dd uid pid r.tasks r.created_at now s)
  | _, _, _, _, _ => .error "KeyError"

/-- The loop body of `Project.load_all`. -/
def Project.loadLoop (now : String) : List ProjectRecord → ProjectState →
    Option String × ProjectState
  | [], s => (none, s)
  | r :: rs, s =>
    match Project.from_dict r now s with
    | .error e => (some e, s)
    | .ok (.error e, s') => (some e, s')
    | .ok (.ok p, s') =>
        Project.loadLoop now rs
          { registry := dput p.project_id p s'.registry
            next_id := if s'.next_id ≤ p.project_id then p.project_id + 1
                       else s'.next_id }

/-- `Project.load_all`. -/
def Project.load_all (fs : FS ProjectRecord) (now : String)
    (_s : ProjectState) : Option String × ProjectState :=
  Project.loadLoop now (FileHandler.load_data fs "projects.json")
    { registry := [], next_id := 1 }

/-- `Project.save_all`. -/
def Project.save_all (ioError : Bool) (fs : FS ProjectRecord)
    (s : ProjectState) : FS ProjectRecord :=
  (FileHandler.save_data ioError fs "projects.json"
    (s.registry.map (fun p => p.2.to_dict))).2

/-! ## Derived predicates and load-fold descriptions

These are not source methods; they are the predicates and state functions the
theorems below are stated with. -/

/-- Registry invariant maintained by the auto-assigning factory: keys are
distinct and every live id is below the counter. -/
def UserState.Inv (s : UserState) : Prop :=
  (dkeys s.registry).Nodup ∧ ∀ k ∈ dkeys s.registry, k < s.next_id

/-- A user record whose required fields are present and whose explicit id is
truthy (so `__init__` keeps it verbatim). -/
def UserRecord.valid (r : UserRecord) : Prop :=
  r.name.isSome ∧ r.email.isSome ∧ r.user_id.isSome ∧ r.user_id ≠ some 0

instance (r : UserRecord) : Decidable r.valid :=
  decidable_of_iff
    (r.name.isSome ∧ r.email.isSome ∧ r.user_id.isSome ∧ r.user_id ≠ some 0)
    Iff.rfl

/-- The user that loading a valid record reconstructs. -/
def UserRecord.toUser (r : UserRecord) (now : String) : User :=
  { user_id := r.user_id.getD 0
    name := r.name.getD ""
    email := r.email.getD ""
    created_at := pyOrStr r.created_at now
    projects := pyOrList r.projects }

/-- State effect of one successful `User.load_all` loop iteration: the double
registration (once in `__init__`, once in the loop) and the counter bump. -/
def User.loadStep (now : String) (s : UserState) (r : UserRecord) : UserState :=
  { registry := dput (r.toUser now).user_id (r.toUser now)
      (dput (r.toUser now).user_id (r.toUser now) s.registry)
    next_id := if s.next_id ≤ (r.toUser now).user_id then (r.toUser now).user_id + 1
               else s.next_id }

/-- A user-registry state reachable by valid operations: entries are keyed by
their entity's id, ids are distinct and truthy, timestamps non-empty. -/
def User.WFState (s : UserState) : Prop :=
  (dkeys s.registry).Nodup ∧
  ∀ p ∈ s.registry, p.1 = p.2.user_id ∧ p.2.user_id ≠ 0 ∧ p.2.created_at ≠ ""

/-- A task record whose required fields are present, whose explicit id is
truthy and whose (defaulted) status passes the constructor's validation. -/
def TaskRecord.valid (r : TaskRecord) : Prop :=
  r.title.isSome ∧ r.description.isSome ∧ r.project_id.isSome ∧
  r.task_id.isSome ∧ r.task_id ≠ some 0 ∧ (r.status.getD "pending") ∈ VALID_STATUSES

instance (r : TaskRecord) : Decidable r.valid :=
  decidable_of_iff
    (r.title.isSome ∧ r.description.isSome ∧ r.project_id.isSome ∧
      r.task_id.isSome ∧ r.task_id ≠ some 0 ∧
      (r.status.getD "pending") ∈ VALID_STATUSES)
    Iff.rfl

/-- The task that loading a valid record reconstructs. -/
def TaskRecord.toTask (r : TaskRecord) (now : String) : Task :=
  { task_id := r.task_id.getD 0
    title := r.title.getD ""
    description := r.description.getD ""
    status := r.status.getD "pending"
    project_id := r.project_id.getD 0
    assigned_users := pyOrList r.assigned_users
    created_at := pyOrStr r.created_at now }

/-- State effect of one successful `Task.load_all` loop iteration. -/
def Task.loadStep (now : String) (s : TaskState) (r : TaskRecord) : TaskState :=
  { registry := dput (r.toTask now).task_id (r.toTask now)
      (dput (r.toTask now).task_id (r.toTask now) s.registry)
    next_id := if s.next_id ≤ (r.toTask now).task_id then (r.toTask now).task_id + 1
               else s.next_id }

/-- A task-registry state reachable by valid operations. -/
def Task.WFState (s : TaskState) : Prop :=
  (dkeys s.registry).Nodup ∧
  ∀ p ∈ s.registry, p.1 = p.2.task_id ∧ p.2.task_id ≠ 0 ∧
    p.2.created_at ≠ "" ∧ p.2.status ∈ VALID_STATUSES

/-- A project record whose required fields are present, whose explicit id is
truthy and whose due-date string parses. -/
def ProjectRecord.valid (r : ProjectRecord) : Prop :=
  r.title.isSome ∧ r.description.isSome ∧ r.user_id.isSome ∧
  r.project_id.isSome ∧ r.project_id ≠ some 0 ∧
  r.due_date.isSome ∧ (parseDT (r.due_date.getD "")).isSome

instance (r : ProjectRecord) : Decidable r.valid :=
  decidable_of_iff
    (r.title.isSome ∧ r.description.isSome ∧ r.user_id.isSome ∧
      r.project_id.isSome ∧ r.project_id ≠ some 0 ∧
      r.due_date.isSome ∧ (parseDT (r.due_date.getD "")).isSome)
    Iff.rfl

/-- The project that loading a valid record reconstructs. -/
def ProjectRecord.toProject (r : ProjectRecord) (now : String) : Project :=
  { project_id := r.project_id.getD 0
    title := r.title.getD ""
    description := r.description.getD ""
    due_date := (parseDT (r.due_date.getD "")).getD ⟨0, 0, 0, 0, 0, 0, 0⟩
    user_id := r.user_id.getD 0
    tasks := pyOrList r.tasks
    created_at := pyOrStr r.created_at now }

/-- State effect of one successful `Project.load_all` loop iteration. -/
def Project.loadStep (now : String) (s : ProjectState) (r : ProjectRecord) :
    ProjectState :=
  { registry := dput (r.toProject now).project_id (r.toProject now)
      (dput (r.toProject now).project_id (r.toProject now) s.registry)
    next_id := if s.next_id ≤ (r.toProject now).project_id
               then (r.toProject now).project_id + 1 else s.next_id }

/-- A project-registry state reachable by valid operations: additionally, the
stored due-date round-trips through its ISO form (true of every value
`dateutil.parser.parse` returns). -/
def Project.WFState (s : ProjectState) : Prop :=
  (dkeys s.registry).Nodup ∧
  ∀ p ∈ s.registry, p.1 = p.2.project_id ∧ p.2.project_id ≠ 0 ∧
    p.2.created_at ≠ "" ∧ parseDT p.2.due_date.isoformat = some p.2.due_date

/-! ## Ordered-dictionary lemmas -/

theorem dmem_iff_mem_dkeys (k : κ) (d : List (κ × α)) :
    dmem k d = true ↔ k ∈ dkeys d := by
  induction d with
  | nil => simp [dmem, dkeys]
  | cons p d ih =>
    simp only [dmem, dkeys, List.map_cons, List.mem_cons, Bool.or_eq_true,
      decide_eq_true_eq] at *
    constructor
    · rintro (h | h)
      · exact Or.inl h.symm
      · exact Or.inr (ih.mp h)
    · rintro (h | h)
      · exact Or.inl h.symm
      · exact Or.inr (ih.mpr h)

theorem dput_fresh (k : κ) (v : α) (d : List (κ × α)) (h : k ∉ dkeys d) :
    dput k v d = d ++ [(k, v)] := by
  have : dmem k d = false := by
    cases hm : dmem k d
    · rfl
    · exact absurd ((dmem_iff_mem_dkeys k d).mp hm) h
  simp [dput, this]

theorem dget_append_fresh (k : κ) (v : α) (d : List (κ × α)) (k' : κ) (h : k' ≠ k) :
    dget k' (d ++ [(k, v)]) = dget k' d := by
  induction d with
  | nil =>
    have : ¬ k = k' := fun hh => h hh.symm
    simp [dget, this]
  | cons p d ih =>
    by_cases hp : p.1 = k'
    · simp [dget, hp]
    · simp [dget, hp, ih]

theorem dget_append_self (k : κ) (v : α) (d : List (κ × α)) (h : k ∉ dkeys d) :
    dget k (d ++ [(k, v)]) = some v := by
  induction d with
  | nil => simp [dget]
  | cons p d ih =>
    simp only [dkeys, List.map_cons, List.mem_cons] at h
    push_neg at h
    have hne : ¬ p.1 = k := fun hh => h.1 hh.symm
    simp only [List.cons_append, dget, if_neg hne]
    exact ih h.2

/-- Re-assigning the pair just appended is a no-op. -/
theorem dput_append_same (k : κ) (v : α) (d : List (κ × α)) (h : k ∉ dkeys d) :
    dput k v (d ++ [(k, v)]) = d ++ [(k, v)] := by
  have hmem : dmem k (d ++ [(k, v)]) = true := by
    rw [dmem_iff_mem_dkeys]
    simp [dkeys]
  rw [dput, if_pos hmem]
  induction d with
  | nil => simp [dset]
  | cons p d ih =>
    simp only [dkeys, List.map_cons, List.mem_cons] at h
    push_neg at h
    have hmem' : dmem k (d ++ [(k, v)]) = true := by
      rw [dmem_iff_mem_dkeys]; simp [dkeys]
    have hne : ¬ p.1 = k := fun hh => h.1 hh.symm
    simp only [List.cons_append, dset, if_neg hne, List.cons.injEq, true_and]
    exact ih h.2 hmem'

theorem dkeys_append (d₁ d₂ : List (κ × α)) :
    dkeys (d₁ ++ d₂) = dkeys d₁ ++ dkeys d₂ := by
  simp [dkeys]

theorem dget_dset_of_mem (k : κ) (v : α) (d : List (κ × α))
    (h : dmem k d = true) : dget k (dset k v d) = some v := by
  induction d with
  | nil => simp [dmem] at h
  | cons p d ih =>
    by_cases hp : p.1 = k
    · simp [dset, hp, dget]
    · simp only [dmem, decide_eq_true_eq, Bool.or_eq_true] at h
      rcases h with h | h
      · exact absurd h hp
      · simp only [dset, if_neg hp, dget, if_neg hp]
        exact ih h

/-- After `d[k] = v`, looking up `k` yields `v`. -/
theorem dget_dput_self (k : κ) (v : α) (d : List (κ × α)) :
    dget k (dput k v d) = some v := by
  by_cases hm : dmem k d = true
  · rw [dput, if_pos hm]
    exact dget_dset_of_mem k v d hm
  · have hfresh : k ∉ dkeys d := fun hk => hm ((dmem_iff_mem_dkeys k d).mpr hk)
    rw [dput_fresh k v d hfresh]
    exact dget_append_self k v d hfresh

/-- A successful lookup means the key is present. -/
theorem dget_mem (k : κ) (d : List (κ × α)) (v : α) (h : dget k d = some v) :
    k ∈ dkeys d := by
  induction d with
  | nil => simp [dget] at h
  | cons p d ih =>
    by_cases hp : p.1 = k
    · simp [dkeys, hp]
    · simp only [dget, if_neg hp] at h
      simp only [dkeys, List.map_cons, List.mem_cons]
      exact Or.inr (ih h)

/-! ## Claim C1 — where User validation happens -/

/-- **C1** (counterexample). Constructing a `User` whose name is `"A"` does
not raise a validation error: `__init__` assigns `self._name = name` directly,
so the instance is created with the one-character name and registered in the
registry. -/
theorem C1_counterexample :
    (User.init "A" "a@b.c" none none none "2024-01-01T00:00:00" ⟨[], 1⟩).1 =
      ⟨1, "A", "a@b.c", "2024-01-01T00:00:00", []⟩ ∧
    User.find_by_id 1
        (User.init "A" "a@b.c" none none none "2024-01-01T00:00:00" ⟨[], 1⟩).2 =
      some ⟨1, "A", "a@b.c", "2024-01-01T00:00:00", []⟩ := by
  constructor <;> decide

/-- **C1** (amended). The `User` constructor and factory perform no field
validation and never fail: `create` stores the name and email verbatim and
registers the instance. Name/email validation lives in the property setters:
setting the name to `"A"` raises, to `"Al"` succeeds; setting the email to
`"bad"` raises, to `"a@b.c"` succeeds. -/
theorem C1_user_validation_lives_in_setters :
    (∀ (name email now : String) (s : UserState),
        (User.create name email now s).1.name = name ∧
        (User.create name email now s).1.email = email ∧
        User.find_by_id (User.create name email now s).1.user_id
            (User.create name email now s).2 =
          some (User.create name email now s).1) ∧
    (∀ u : User,
        User.setName u "A" = .error "Name must be at least 2 characters long") ∧
    (∀ u : User, User.setName u "Al" = .ok { u with name := "Al" }) ∧
    (∀ u : User, User.setEmail u "bad" = .error "Invalid email format") ∧
    (∀ u : User, User.setEmail u "a@b.c" = .ok { u with email := "a@b.c" }) := by
  refine ⟨?_, ?_, ?_, ?_, ?_⟩
  · intro name email now s
    refine ⟨rfl, rfl, ?_⟩
    exact dget_dput_self s.next_id _ s.registry
  · intro u
    have h : ("A" = "" ∨ pyLen (pyStrip "A") < 2) := by decide
    unfold User.setName
    rw [if_pos h]
  · intro u
    have h : ¬ ("Al" = "" ∨ pyLen (pyStrip "Al") < 2) := by decide
    have h2 : pyStrip "Al" = "Al" := by decide
    unfold User.setName
    rw [if_neg h, h2]
  · intro u
    have h : (¬ (pyContains "bad" '@') ∨ ¬ (pyContains "bad" '.')) := by decide
    unfold User.setEmail
    rw [if_pos h]
  · intro u
    have h : ¬ (¬ (pyContains "a@b.c" '@') ∨ ¬ (pyContains "a@b.c" '.')) := by decide
    have h2 : pyStrip "a@b.c" = "a@b.c" := by decide
    unfold User.setEmail
    rw [if_neg h, h2]

/-! ## Claim C9 — Task status lifecycle -/

/-- **C9**. A factory-created `Task` has status `"pending"` and is registered;
`mark_complete` sets the status to `"completed"` (making `is_completed` true);
setting the status to any value outside the three-value enum raises a
validation error — and since the check precedes the assignment, the task is
left unchanged (the error carries no mutated task). -/
theorem C9_task_status_lifecycle :
    (∀ (title description : String) (project_id : Nat) (now : String)
        (s : TaskState),
        (Task.create title description project_id now s).1 =
          .ok ⟨s.next_id, title, description, "pending", project_id, [], now⟩ ∧
        Task.find_by_id s.next_id (Task.create title description project_id now s).2 =
          some ⟨s.next_id, title, description, "pending", project_id, [], now⟩) ∧
    (∀ t : Task,
        Task.mark_complete t = .ok { t with status := "completed" } ∧
        ({ t with status := "completed" } : Task).is_completed = true) ∧
    (∀ (t : Task) (v : String), v ∉ VALID_STATUSES →
        Task.setStatus t v =
          .error "Invalid status. Must be one of: pending, in_progress, completed") := by
  refine ⟨?_, ?_, ?_⟩
  · intro title description project_id now s
    have hp : ("pending" : String) ∈ VALID_STATUSES := by decide
    constructor
    · show (Task.init title description project_id none "pending" none none now s).1 = _
      unfold Task.init
      simp only [pyIdAlloc, if_pos hp]
      rfl
    · show dget s.next_id (Task.init title description project_id none "pending"
        none none now s).2.registry = _
      unfold Task.init
      simp only [pyIdAlloc, if_pos hp]
      exact dget_dput_self s.next_id _ s.registry
  · intro t
    have hc : ("completed" : String) ∈ VALID_STATUSES := by decide
    constructor
    · unfold Task.mark_complete Task.setStatus
      rw [if_pos hc]
    · rfl
  · intro t v hv
    unfold Task.setStatus
    rw [if_neg hv]

/-- **C9** witness: at the concrete task with id 1 and the concrete invalid
status `"bogus"`. -/
theorem C9_witness :
    Task.setStatus ⟨1, "t", "", "pending", 1, [], "c"⟩ "bogus" =
      .error "Invalid status. Must be one of: pending, in_progress, completed" :=
  C9_task_status_lifecycle.2.2 ⟨1, "t", "", "pending", 1, [], "c"⟩ "bogus" (by decide)

/-! ## Claim C6 — idempotent relationship operations -/

/-- **C6**. All six relationship operations are idempotent: adding an id
already present is a no-op, removing an absent id is a no-op, and adding
twice equals adding once — for `User.add_project`/`remove_project`,
`Project.add_task`/`remove_task`, `Task.assign_user`/`unassign_user`. -/
theorem C6_relationship_ops_idempotent :
    (∀ (u : User) (x : Nat),
        (x ∈ u.projects → u.add_project x = u) ∧
        (x ∉ u.projects → u.remove_project x = u) ∧
        (u.add_project x).add_project x = u.add_project x) ∧
    (∀ (p : Project) (x : Nat),
        (x ∈ p.tasks → p.add_task x = p) ∧
        (x ∉ p.tasks → p.remove_task x = p) ∧
        (p.add_task x).add_task x = p.add_task x) ∧
    (∀ (t : Task) (x : Nat),
        (x ∈ t.assigned_users → t.assign_user x = t) ∧
        (x ∉ t.assigned_users → t.unassign_user x = t) ∧
        (t.assign_user x).assign_user x = t.assign_user x) := by
  refine ⟨?_, ?_, ?_⟩
  · intro u x
    refine ⟨fun hx => ?_, fun hx => ?_, ?_⟩
    · simp [User.add_project, hx]
    · simp [User.remove_project, hx]
    · by_cases hx : x ∈ u.projects
      · simp [User.add_project, hx]
      · simp [User.add_project, hx]
  · intro p x
    refine ⟨fun hx => ?_, fun hx => ?_, ?_⟩
    · simp [Project.add_task, hx]
    · simp [Project.remove_task, hx]
    · by_cases hx : x ∈ p.tasks
      · simp [Project.add_task, hx]
      · simp [Project.add_task, hx]
  · intro t x
    refine ⟨fun hx => ?_, fun hx => ?_, ?_⟩
    · simp [Task.assign_user, hx]
    · simp [Task.unassign_user, hx]
    · by_cases hx : x ∈ t.assigned_users
      · simp [Task.assign_user, hx]
      · simp [Task.assign_user, hx]

/-- **C6** witness: at concrete entities — adding the already-present id `7`
and removing the absent id `9` leave each relationship list unchanged. -/
theorem C6_witness :
    ((⟨1, "n", "e", "c", [7]⟩ : User).add_project 7 = ⟨1, "n", "e", "c", [7]⟩) ∧
    ((⟨1, "n", "e", "c", [7]⟩ : User).remove_project 9 = ⟨1, "n", "e", "c", [7]⟩) ∧
    ((⟨1, "t", "", ⟨2099, 1, 1, 0, 0, 0, 0⟩, 1, [7], "c"⟩ : Project).add_task 7 =
      ⟨1, "t", "", ⟨2099, 1, 1, 0, 0, 0, 0⟩, 1, [7], "c"⟩) ∧
    ((⟨1, "t", "", ⟨2099, 1, 1, 0, 0, 0, 0⟩, 1, [7], "c"⟩ : Project).remove_task 9 =
      ⟨1, "t", "", ⟨2099, 1, 1, 0, 0, 0, 0⟩, 1, [7], "c"⟩) ∧
    ((⟨1, "t", "", "pending", 1, [7], "c"⟩ : Task).assign_user 7 =
      ⟨1, "t", "", "pending", 1, [7], "c"⟩) ∧
    ((⟨1, "t", "", "pending", 1, [7], "c"⟩ : Task).unassign_user 9 =
      ⟨1, "t", "", "pending", 1, [7], "c"⟩) :=
  ⟨(C6_relationship_ops_idempotent.1 ⟨1, "n", "e", "c", [7]⟩ 7).1 (by decide),
   (C6_relationship_ops_idempotent.1 ⟨1, "n", "e", "c", [7]⟩ 9).2.1 (by decide),
   (C6_relationship_ops_idempotent.2.1 ⟨1, "t", "", ⟨2099, 1, 1, 0, 0, 0, 0⟩, 1, [7], "c"⟩ 7).1
     (by decide),
   (C6_relationship_ops_idempotent.2.1 ⟨1, "t", "", ⟨2099, 1, 1, 0, 0, 0, 0⟩, 1, [7], "c"⟩ 9).2.1
     (by decide),
   (C6_relationship_ops_idempotent.2.2 ⟨1, "t", "", "pending", 1, [7], "c"⟩ 7).1 (by decide),
   (C6_relationship_ops_idempotent.2.2 ⟨1, "t", "", "pending", 1, [7], "c"⟩ 9).2.1 (by decide)⟩

/-! ## Claim C2 — completion percentage and dangling task ids -/

/-- **C2** (counterexample). With two resolving tasks (one completed) and one
dangling id `9`, the code returns `100/3` — the dangling id IS counted in the
total (`total_tasks = len(self.tasks)`), so the claimed value `50` is wrong. -/
theorem C2_counterexample :
    Project.get_completion_percentage
        ⟨1, "p", "", ⟨2099, 1, 1, 0, 0, 0, 0⟩, 1, [1, 2, 9], "c"⟩
        ⟨[(1, ⟨1, "t1", "", "completed", 1, [], "c"⟩),
          (2, ⟨2, "t2", "", "pending", 1, [], "c"⟩)], 3⟩ = 100 / 3 ∧
    (100 / 3 : Rat) ≠ 50 := by
  constructor
  · have h1 : ([1, 2, 9] : List Nat) = [] ↔ False := by simp
    unfold Project.get_completion_percentage
    have h2 : (List.filter (fun tid =>
        match Task.find_by_id tid ⟨[(1, ⟨1, "t1", "", "completed", 1, [], "c"⟩),
          (2, ⟨2, "t2", "", "pending", 1, [], "c"⟩)], 3⟩ with
        | some t => decide (t.status = "completed")
        | none => false) [1, 2, 9]).length = 1 := by decide
    simp only [h1, if_false]
    norm_num [h2]
  · norm_num

/-- **C2** (amended). `get_completion_percentage` returns `0` for an empty
task-id list; otherwise it returns (number of listed ids that resolve to a
completed task) / (total number of LISTED ids — dangling ids included in the
denominator, though never counted as completed) × 100; with 2 resolving tasks
of which 1 is completed and no dangling ids it returns exactly 50. -/
theorem C2_completion_percentage_amended :
    (∀ (p : Project) (ts : TaskState), p.tasks = [] →
        Project.get_completion_percentage p ts = 0) ∧
    (∀ (p : Project) (ts : TaskState), p.tasks ≠ [] →
        Project.get_completion_percentage p ts =
          ((p.tasks.countP (fun tid =>
              (Task.find_by_id tid ts).any (fun t => t.status == "completed")) : Rat) /
            (p.tasks.length : Rat)) * 100) ∧
    Project.get_completion_percentage
        ⟨1, "p", "", ⟨2099, 1, 1, 0, 0, 0, 0⟩, 1, [1, 2], "c"⟩
        ⟨[(1, ⟨1, "t1", "", "completed", 1, [], "c"⟩),
          (2, ⟨2, "t2", "", "pending", 1, [], "c"⟩)], 3⟩ = 50 := by
  refine ⟨?_, ?_, ?_⟩
  · intro p ts h
    unfold Project.get_completion_percentage
    rw [if_pos h]
  · intro p ts h
    unfold Project.get_completion_percentage
    rw [if_neg h]
    have hpred : ∀ tid : Nat,
        (Task.find_by_id tid ts).any (fun t => t.status == "completed") =
          (match Task.find_by_id tid ts with
           | some t => decide (t.status = "completed")
           | none => false) := by
      intro tid
      cases Task.find_by_id tid ts with
      | none => rfl
      | some t => rfl
    simp only [List.countP_eq_length_filter, hpred]
  · have h1 : ([1, 2] : List Nat) = [] ↔ False := by simp
    unfold Project.get_completion_percentage
    have h2 : (List.filter (fun tid =>
        match Task.find_by_id tid ⟨[(1, ⟨1, "t1", "", "completed", 1, [], "c"⟩),
          (2, ⟨2, "t2", "", "pending", 1, [], "c"⟩)], 3⟩ with
        | some t => decide (t.status = "completed")
        | none => false) [1, 2]).length = 1 := by decide
    simp only [h1, if_false]
    norm_num [h2]

/-- **C2** witness: the zero-task and the 2-resolving-tasks cases at concrete
inputs, through the amended theorem. -/
theorem C2_witness :
    Project.get_completion_percentage
        ⟨1, "p", "", ⟨2099, 1, 1, 0, 0, 0, 0⟩, 1, [], "c"⟩ ⟨[], 1⟩ = 0 ∧
    Project.get_completion_percentage
        ⟨1, "p", "", ⟨2099, 1, 1, 0, 0, 0, 0⟩, 1, [1, 2], "c"⟩
        ⟨[(1, ⟨1, "t1", "", "completed", 1, [], "c"⟩),
          (2, ⟨2, "t2", "", "pending", 1, [], "c"⟩)], 3⟩ =
      ((1 : Rat) / 2) * 100 := by
  constructor
  · exact C2_completion_percentage_amended.1
      ⟨1, "p", "", ⟨2099, 1, 1, 0, 0, 0, 0⟩, 1, [], "c"⟩ ⟨[], 1⟩ rfl
  · rw [C2_completion_percentage_amended.2.1
      ⟨1, "p", "", ⟨2099, 1, 1, 0, 0, 0, 0⟩, 1, [1, 2], "c"⟩
      ⟨[(1, ⟨1, "t1", "", "completed", 1, [], "c"⟩),
        (2, ⟨2, "t2", "", "pending", 1, [], "c"⟩)], 3⟩ (by decide)]
    norm_num
    rw [show (List.countP (fun tid =>
        (Task.find_by_id tid ⟨[(1, ⟨1, "t1", "", "completed", 1, [], "c"⟩),
          (2, ⟨2, "t2", "", "pending", 1, [], "c"⟩)], 3⟩).any
          (fun t => t.status == "completed")) [1, 2]) = 1 from by decide]
    norm_num

/-! ## Claim C8 — persistence errors never raise -/

/-- **C8**. `load_data` returns `[]` (not an error) for an absent file and for
a file with malformed JSON; `save_data` reports the outcome as a boolean —
`False` on an I/O failure (leaving the file untouched), `True` on success —
rather than raising. -/
theorem C8_persistence_errors_absorbed :
    (∀ (α : Type) (fs : FS α) (filename : String),
        dget filename fs = none → FileHandler.load_data fs filename = []) ∧
    (∀ (α : Type) (fs : FS α) (filename raw : String),
        dget filename fs = some (.malformed raw) →
          FileHandler.load_data fs filename = []) ∧
    (∀ (α : Type) (fs : FS α) (filename : String) (records : List α),
        FileHandler.save_data true fs filename records = (false, fs) ∧
        FileHandler.save_data false fs filename records =
          (true, dput filename (FileContent.json records) fs)) := by
  refine ⟨?_, ?_, ?_⟩
  · intro α fs filename h
    unfold FileHandler.load_data
    rw [h]
  · intro α fs filename raw h
    unfold FileHandler.load_data
    rw [h]
  · intro α fs filename records
    exact ⟨rfl, rfl⟩

/-- **C8** witness: a concrete absent file and a concrete malformed file. -/
theorem C8_witness :
    FileHandler.load_data ([] : FS Nat) "users.json" = [] ∧
    FileHandler.load_data [("users.json", FileContent.malformed "not json")]
      "users.json" = ([] : List Nat) :=
  ⟨C8_persistence_errors_absorbed.1 Nat [] "users.json" rfl,
   C8_persistence_errors_absorbed.2.1 Nat
     [("users.json", FileContent.malformed "not json")] "users.json" "not json"
     (by decide)⟩

/-! ## Claim C7 — id uniqueness and stability -/

/-- **C7** (counterexample). Constructing a second user with the explicit
already-live id 1 silently replaces the first in the registry: `find_by_id 1`
returns Ana before and Bob after, with no `load_all` in between — ids are not
stable under the full public surface. -/
theorem C7_counterexample :
    User.find_by_id 1 (User.init "Ana" "ana@x.com" none none none "t1" ⟨[], 1⟩).2 =
      some ⟨1, "Ana", "ana@x.com", "t1", []⟩ ∧
    User.find_by_id 1
        (User.init "Bob" "bob@x.com" (some 1) none none "t2"
          (User.init "Ana" "ana@x.com" none none none "t1" ⟨[], 1⟩).2).2 =
      some ⟨1, "Bob", "bob@x.com", "t2", []⟩ ∧
    (⟨1, "Ana", "ana@x.com", "t1", []⟩ : User) ≠ ⟨1, "Bob", "bob@x.com", "t2", []⟩ := by
  refine ⟨by decide, by decide, by decide⟩

/-- **C7** (amended). Under the auto-assigning factory the claim holds: in any
state satisfying the factory invariant (distinct keys, all below the counter)
`create` allocates an id not currently live, preserves the invariant — so ids
stay unique — and leaves every existing `find_by_id` binding unchanged.
Stability can be broken only by constructing with an explicit already-live id
(see the counterexample). -/
theorem C7_amended_create_ids_unique_stable :
    UserState.Inv ⟨[], 1⟩ ∧
    (∀ (name email now : String) (s : UserState), UserState.Inv s →
        UserState.Inv (User.create name email now s).2 ∧
        (User.create name email now s).1.user_id ∉ dkeys s.registry ∧
        (∀ (k : Nat) (u : User), User.find_by_id k s = some u →
            User.find_by_id k (User.create name email now s).2 = some u)) := by
  constructor
  · exact ⟨List.nodup_nil, by simp [dkeys]⟩
  · intro name email now s hs
    obtain ⟨hnd, hlt⟩ := hs
    have hfresh : s.next_id ∉ dkeys s.registry := fun hmem =>
      absurd (hlt s.next_id hmem) (lt_irrefl s.next_id)
    have hreg : (User.create name email now s).2.registry =
        s.registry ++ [(s.next_id, (User.create name email now s).1)] :=
      dput_fresh s.next_id _ s.registry hfresh
    refine ⟨⟨?_, ?_⟩, hfresh, ?_⟩
    · rw [hreg, dkeys_append]
      rw [List.nodup_append]
      refine ⟨hnd, List.nodup_singleton _, ?_⟩
      intro k hk hk'
      simp only [dkeys, List.map_cons, List.map_nil, List.mem_singleton] at hk'
      exact hfresh (hk' ▸ hk)
    · intro k hk
      rw [hreg, dkeys_append] at hk
      rcases List.mem_append.mp hk with h | h
      · exact Nat.lt_succ_of_lt (hlt k h)
      · simp only [dkeys, List.map_cons, List.map_nil, List.mem_singleton] at h
        subst h
        exact Nat.lt_succ_self _
    · intro k u hk
      have hkmem : k ∈ dkeys s.registry := dget_mem k s.registry u hk
      have hkne : k ≠ s.next_id := fun he => hfresh (he ▸ hkmem)
      show dget k (User.create name email now s).2.registry = some u
      rw [hreg, dget_append_fresh s.next_id _ s.registry k hkne]
      exact hk

/-- **C7** witness: from a concrete invariant-satisfying state with one live
user, `create` preserves the invariant and the live binding. -/
theorem C7_witness :
    UserState.Inv
      (User.create "Bob" "b@x.c" "t2" ⟨[(1, ⟨1, "Ana", "a@x.c", "t1", []⟩)], 2⟩).2 ∧
    User.find_by_id 1
        (User.create "Bob" "b@x.c" "t2" ⟨[(1, ⟨1, "Ana", "a@x.c", "t1", []⟩)], 2⟩).2 =
      some ⟨1, "Ana", "a@x.c", "t1", []⟩ :=
  ⟨(C7_amended_create_ids_unique_stable.2 "Bob" "b@x.c" "t2"
      ⟨[(1, ⟨1, "Ana", "a@x.c", "t1", []⟩)], 2⟩ (by constructor <;> decide)).1,
   (C7_amended_create_ids_unique_stable.2 "Bob" "b@x.c" "t2"
      ⟨[(1, ⟨1, "Ana", "a@x.c", "t1", []⟩)], 2⟩ (by constructor <;> decide)).2.2 1
      ⟨1, "Ana", "a@x.c", "t1", []⟩ (by decide)⟩

/-! ## Claim C10 — failed Task construction consumes an id -/

/-- **C10**. Constructing a `Task` with an invalid status and no explicit id
fails AFTER the counter has been advanced but BEFORE registration: the error
state keeps the old registry (so the failed task appears in neither the
registry nor `get_all`) with the counter bumped, and the next successful
`create` allocates the new counter value — skipping the consumed id, which
(in a state whose live ids are all below the counter) remains absent from the
registry: a gap without any load. -/
theorem C10_failed_task_construction_consumes_id :
    ∀ (title description : String) (project_id : Nat)
      (assigned_users : Option (List Nat)) (created_at : Option String)
      (now v : String) (s : TaskState),
      v ∉ VALID_STATUSES →
      Task.init title description project_id none v assigned_users created_at now s =
        (.error "Invalid status. Must be one of: pending, in_progress, completed",
         { registry := s.registry, next_id := s.next_id + 1 }) ∧
      Task.get_all { registry := s.registry, next_id := s.next_id + 1 } =
        Task.get_all s ∧
      (Task.create title description project_id now
          { registry := s.registry, next_id := s.next_id + 1 }).1 =
        .ok ⟨s.next_id + 1, title, description, "pending", project_id, [], now⟩ ∧
      ((∀ k ∈ dkeys s.registry, k < s.next_id) →
        s.next_id ∉ dkeys (Task.create title description project_id now
          { registry := s.registry, next_id := s.next_id + 1 }).2.registry) := by
  intro title description project_id assigned_users created_at now v s hv
  have hp : ("pending" : String) ∈ VALID_STATUSES := by decide
  refine ⟨?_, rfl, ?_, ?_⟩
  · unfold Task.init
    simp only [pyIdAlloc, if_neg hv]
  · show (Task.init title description project_id none "pending" none none now
      { registry := s.registry, next_id := s.next_id + 1 }).1 = _
    unfold Task.init
    simp only [pyIdAlloc, if_pos hp]
    rfl
  · intro hbound
    have hfresh : s.next_id + 1 ∉ dkeys s.registry := fun hmem =>
      absurd (hbound _ hmem) (by omega)
    show s.next_id ∉ dkeys (Task.init title description project_id none "pending"
      none none now { registry := s.registry, next_id := s.next_id + 1 }).2.registry
    unfold Task.init
    simp only [pyIdAlloc, if_pos hp]
    rw [dput_fresh _ _ _ hfresh, dkeys_append]
    intro hmem
    rcases List.mem_append.mp hmem with h | h
    · exact absurd (hbound _ h) (lt_irrefl _)
    · simp only [dkeys, List.map_cons, List.map_nil, List.mem_singleton] at h
      omega

/-- **C10** witness: from the empty registry with counter 1, constructing with
status `"bogus"` consumes id 1; the next `create` gets id 2 and id 1 is never
live. -/
theorem C10_witness :
    Task.init "T" "" 1 none "bogus" none none "c" ⟨[], 1⟩ =
      (.error "Invalid status. Must be one of: pending, in_progress, completed",
       ⟨[], 2⟩) ∧
    (Task.create "T" "" 1 "c" ⟨[], 2⟩).1 = .ok ⟨2, "T", "", "pending", 1, [], "c"⟩ ∧
    1 ∉ dkeys (Task.create "T" "" 1 "c" ⟨[], 2⟩).2.registry := by
  have h := C10_failed_task_construction_consumes_id "T" "" 1 none none "c" "bogus"
    ⟨[], 1⟩ (by decide)
  exact ⟨h.1, h.2.2.1, h.2.2.2 (by simp [dkeys])⟩

/-! ## Load-loop machinery -/

/-- A record missing one of the three required keys makes `from_dict` raise
`KeyError`. -/
theorem user_from_dict_missing (r : UserRecord) (now : String) (s : UserState)
    (h : r.name = none ∨ r.email = none ∨ r.user_id = none) :
    User.from_dict r now s = .error "KeyError" := by
  cases hn : r.name <;> cases he : r.email <;> cases hu : r.user_id <;>
    simp_all [User.from_dict]

/-- Valid records load without error, one `loadStep` each; the loop then
continues on the remaining records. -/
theorem user_loadLoop_append (now : String) :
    ∀ (gs rest : List UserRecord) (s : UserState),
      (∀ r ∈ gs, r.valid) →
      User.loadLoop now (gs ++ rest) s =
        User.loadLoop now rest (gs.foldl (User.loadStep now) s) := by
  intro gs
  induction gs with
  | nil => intro rest s _; rfl
  | cons r gs ih =>
    intro rest s hval
    obtain ⟨hn0, he0, hid0, hidnz⟩ := hval r (List.mem_cons_self r _)
    obtain ⟨n, hn⟩ := Option.isSome_iff_exists.mp hn0
    obtain ⟨e, he⟩ := Option.isSome_iff_exists.mp he0
    obtain ⟨i, hi⟩ := Option.isSome_iff_exists.mp hid0
    cases i with
    | zero => exact absurd hi hidnz
    | succ k =>
      show User.loadLoop now (r :: (gs ++ rest)) s = _
      rw [List.foldl_cons]
      have hstep : User.from_dict r now s =
          .ok (r.toUser now,
            { registry := dput (r.toUser now).user_id (r.toUser now) s.registry
              next_id := s.next_id }) := by
        simp [User.from_dict, hn, he, hi, User.init, pyIdAlloc, UserRecord.toUser]
      simp only [User.loadLoop, hstep]
      exact ih rest (User.loadStep now s r)
        (fun r' hr' => hval r' (List.mem_cons_of_mem _ hr'))

/-- A list of valid records loads without error into the fold of the load
steps. -/
theorem user_loadLoop_valid (now : String) (rs : List UserRecord)
    (s : UserState) (h : ∀ r ∈ rs, r.valid) :
    User.loadLoop now rs s = (none, rs.foldl (User.loadStep now) s) := by
  have := user_loadLoop_append now rs [] s h
  simpa using this

/-! ## Claim C3 — a malformed record mid-load -/

/-- **C3** (counterexample). Loading `[good, bad]` (`bad` missing `name`)
fails with `KeyError` — but the registry, cleared at the start of `load_all`,
is left containing the good record that preceded the malformed one: partial
population, contradicting "the registry is not left partially populated". -/
theorem C3_counterexample :
    User.load_all
        [("users.json", FileContent.json
          [⟨some 1, some "Ana", some "a@x.c", some "t", some []⟩,
           ⟨some 2, none, some "b@x.c", some "t", some []⟩])] "t" ⟨[], 1⟩ =
      (some "KeyError", ⟨[(1, ⟨1, "Ana", "a@x.c", "t", []⟩)], 2⟩) ∧
    ([(1, (⟨1, "Ana", "a@x.c", "t", []⟩ : User))] : List (Nat × User)) ≠ [] := by
  constructor <;> decide

/-- **C3** (amended). When the record sequence is `goods ++ bad :: rest` with
`goods` valid and `bad` missing a required field, the whole load fails with
the `KeyError` and no record after `bad` is loaded — but the registry (already
cleared) is left partially populated with exactly the loaded `goods` prefix. -/
theorem C3_amended_load_fails_partially_populated :
    ∀ (fs : FS UserRecord) (now : String) (s : UserState)
      (goods : List UserRecord) (bad : UserRecord) (rest : List UserRecord),
      FileHandler.load_data fs "users.json" = goods ++ bad :: rest →
      (∀ r ∈ goods, r.valid) →
      (bad.name = none ∨ bad.email = none ∨ bad.user_id = none) →
      User.load_all fs now s =
        (some "KeyError", goods.foldl (User.loadStep now) ⟨[], 1⟩) := by
  intro fs now s goods bad rest hdata hg hbad
  unfold User.load_all
  rw [hdata, user_loadLoop_append now goods (bad :: rest) _ hg]
  simp only [User.loadLoop, user_from_dict_missing bad now _ hbad]

/-- **C3** witness: the concrete two-record file of the counterexample,
through the amended theorem. -/
theorem C3_witness :
    User.load_all
        [("users.json", FileContent.json
          [⟨some 1, some "Ana", some "a@x.c", some "t", some []⟩,
           ⟨some 2, none, some "b@x.c", some "t", some []⟩])] "t" ⟨[(9, ⟨9, "old", "o@x.c", "t0", []⟩)], 42⟩ =
      (some "KeyError", ⟨[(1, ⟨1, "Ana", "a@x.c", "t", []⟩)], 2⟩) := by
  rw [C3_amended_load_fails_partially_populated
    [("users.json", FileContent.json
      [⟨some 1, some "Ana", some "a@x.c", some "t", some []⟩,
       ⟨some 2, none, some "b@x.c", some "t", some []⟩])] "t"
    ⟨[(9, ⟨9, "old", "o@x.c", "t0", []⟩)], 42⟩
    [⟨some 1, some "Ana", some "a@x.c", some "t", some []⟩]
    ⟨some 2, none, some "b@x.c", some "t", some []⟩ [] (by decide) (by decide)
    (Or.inl rfl)]
  decide

/-- The loop's counter bump is a max with the successor. -/
theorem bump_eq_max (a i : Nat) :
    (if a ≤ i then i + 1 else a) = Nat.max a (i + 1) := by
  show _ = max a (i + 1)
  rw [Nat.max_def]
  split_ifs <;> omega

/-- Folding max-with-successor from `a + 1` is folding max from `a`, plus
one. -/
theorem foldl_max_add_one :
    ∀ (l : List Nat) (a : Nat),
      l.foldl (fun b i => Nat.max b (i + 1)) (a + 1) = l.foldl Nat.max a + 1 := by
  intro l
  induction l with
  | nil => intro a; rfl
  | cons i l ih =>
    intro a
    simp only [List.foldl_cons]
    have hsucc : (a + 1).max (i + 1) = a.max i + 1 := by
      show max (a + 1) (i + 1) = max a i + 1
      rw [Nat.max_def, Nat.max_def]
      split_ifs <;> omega
    rw [hsucc]
    exact ih (Nat.max a i)

/-- The fold of load steps, split into its registry and counter components. -/
theorem user_foldl_loadStep_eq (now : String) :
    ∀ (rs : List UserRecord) (s : UserState),
      rs.foldl (User.loadStep now) s =
        { registry := (rs.map (fun r => r.toUser now)).foldl
            (fun d u => dput u.user_id u (dput u.user_id u d)) s.registry
          next_id := (rs.map (fun r => (r.toUser now).user_id)).foldl
            (fun a i => if a ≤ i then i + 1 else a) s.next_id } := by
  intro rs
  induction rs with
  | nil => intro s; rfl
  | cons r rs ih =>
    intro s
    simp only [List.foldl_cons, List.map_cons]
    exact ih _

/-! ## Claim C5 — loading replaces the registry and resets the counter -/

/-- **C5**. A successful `load_all` ignores the prior state entirely: it
reports no error, produces exactly the fold of the load steps over the loaded
records from the fresh state (registry replaced wholesale), and resets the
counter to (maximum loaded id) + 1 — which is 1 when no records are loaded —
so the next `create` assigns exactly that id. -/
theorem C5_load_replaces_and_resets_counter :
    ∀ (fs : FS UserRecord) (now : String) (s : UserState) (rs : List UserRecord),
      FileHandler.load_data fs "users.json" = rs →
      (∀ r ∈ rs, r.valid) →
      (User.load_all fs now s).1 = none ∧
      (User.load_all fs now s).2 = rs.foldl (User.loadStep now) ⟨[], 1⟩ ∧
      (User.load_all fs now s).2.next_id =
        (rs.map (fun r => r.user_id.getD 0)).foldl Nat.max 0 + 1 ∧
      (∀ (name email now₂ : String),
        (User.create name email now₂ (User.load_all fs now s).2).1.user_id =
          (rs.map (fun r => r.user_id.getD 0)).foldl Nat.max 0 + 1) := by
  intro fs now s rs hdata hvalid
  have hload : User.load_all fs now s =
      (none, rs.foldl (User.loadStep now) ⟨[], 1⟩) := by
    unfold User.load_all
    rw [hdata]
    exact user_loadLoop_valid now rs _ hvalid
  have hnext : (rs.foldl (User.loadStep now) ⟨[], 1⟩).next_id =
      (rs.map (fun r => r.user_id.getD 0)).foldl Nat.max 0 + 1 := by
    rw [user_foldl_loadStep_eq]
    show (rs.map (fun r => (r.toUser now).user_id)).foldl
      (fun a i => if a ≤ i then i + 1 else a) 1 = _
    simp only [bump_eq_max]
    exact foldl_max_add_one (rs.map (fun r => (r.toUser now).user_id)) 0
  refine ⟨by rw [hload], by rw [hload], by rw [hload]; exact hnext, ?_⟩
  intro name email now₂
  show (User.load_all fs now s).2.next_id = _
  rw [hload]
  exact hnext

/-- **C5** witness: loading records with ids {3, 7, 1} (from an arbitrary
dirty prior state) makes the next `create` assign id 8. -/
theorem C5_witness :
    (User.create "Zoe" "z@x.c" "t2"
        (User.load_all
          [("users.json", FileContent.json
            [⟨some 3, some "A", some "a@x.c", some "t", some []⟩,
             ⟨some 7, some "B", some "b@x.c", some "t", some []⟩,
             ⟨some 1, some "C", some "c@x.c", some "t", some []⟩])] "t"
          ⟨[(9, ⟨9, "old", "o@x.c", "t0", []⟩)], 42⟩).2).1.user_id = 8 := by
  rw [(C5_load_replaces_and_resets_counter
    [("users.json", FileContent.json
      [⟨some 3, some "A", some "a@x.c", some "t", some []⟩,
       ⟨some 7, some "B", some "b@x.c", some "t", some []⟩,
       ⟨some 1, some "C", some "c@x.c", some "t", some []⟩])] "t"
    ⟨[(9, ⟨9, "old", "o@x.c", "t0", []⟩)], 42⟩
    [⟨some 3, some "A", some "a@x.c", some "t", some []⟩,
     ⟨some 7, some "B", some "b@x.c", some "t", some []⟩,
     ⟨some 1, some "C", some "c@x.c", some "t", some []⟩] rfl
    (by decide)).2.2.2 "Zoe" "z@x.c" "t2"]
  decide

/-! ## Round-trip machinery -/

/-- Folding double insertions of entities with globally distinct ids appends
each entity, keyed by its id, in order. -/
theorem foldl_dput2_restore {E : Type} (eid : E → Nat) :
    ∀ (us : List E) (reg : List (Nat × E)),
      (dkeys reg ++ us.map eid).Nodup →
      us.foldl (fun d u => dput (eid u) u (dput (eid u) u d)) reg =
        reg ++ us.map (fun u => (eid u, u)) := by
  intro us
  induction us with
  | nil => intro reg _; simp
  | cons u us ih =>
    intro reg hnd
    rw [List.map_cons] at hnd
    have hfresh : eid u ∉ dkeys reg := by
      rw [List.nodup_append] at hnd
      exact fun hmem => hnd.2.2 hmem (List.mem_cons_self _ _)
    simp only [List.foldl_cons, List.map_cons]
    rw [dput_fresh (eid u) u reg hfresh, dput_append_same (eid u) u reg hfresh]
    have hnd2 : (dkeys (reg ++ [(eid u, u)]) ++ us.map eid).Nodup := by
      rw [dkeys_append, List.append_assoc]
      exact hnd
    rw [ih (reg ++ [(eid u, u)]) hnd2, List.append_assoc]
    rfl

/-- The fold of task load steps, split into components. -/
theorem task_foldl_loadStep_eq (now : String) :
    ∀ (rs : List TaskRecord) (s : TaskState),
      rs.foldl (Task.loadStep now) s =
        { registry := (rs.map (fun r => r.toTask now)).foldl
            (fun d t => dput t.task_id t (dput t.task_id t d)) s.registry
          next_id := (rs.map (fun r => (r.toTask now).task_id)).foldl
            (fun a i => if a ≤ i then i + 1 else a) s.next_id } := by
  intro rs
  induction rs with
  | nil => intro s; rfl
  | cons r rs ih =>
    intro s
    simp only [List.foldl_cons, List.map_cons]
    exact ih _

/-- The fold of project load steps, split into components. -/
theorem project_foldl_loadStep_eq (now : String) :
    ∀ (rs : List ProjectRecord) (s : ProjectState),
      rs.foldl (Project.loadStep now) s =
        { registry := (rs.map (fun r => r.toProject now)).foldl
            (fun d p => dput p.project_id p (dput p.project_id p d)) s.registry
          next_id := (rs.map (fun r => (r.toProject now).project_id)).foldl
            (fun a i => if a ≤ i then i + 1 else a) s.next_id } := by
  intro rs
  induction rs with
  | nil => intro s; rfl
  | cons r rs ih =>
    intro s
    simp only [List.foldl_cons, List.map_cons]
    exact ih _

/-- A list of valid task records loads without error into the fold of the
load steps. -/
theorem task_loadLoop_valid (now : String) :
    ∀ (rs : List TaskRecord) (s : TaskState),
      (∀ r ∈ rs, r.valid) →
      Task.loadLoop now rs s = (none, rs.foldl (Task.loadStep now) s) := by
  intro rs
  induction rs with
  | nil => intro s _; rfl
  | cons r rs ih =>
    intro s hval
    obtain ⟨ht0, hd0, hp0, hid0, hidnz, hst⟩ := hval r (List.mem_cons_self r _)
    obtain ⟨ti, ht⟩ := Option.isSome_iff_exists.mp ht0
    obtain ⟨de, hd⟩ := Option.isSome_iff_exists.mp hd0
    obtain ⟨pid, hp⟩ := Option.isSome_iff_exists.mp hp0
    obtain ⟨i, hi⟩ := Option.isSome_iff_exists.mp hid0
    cases i with
    | zero => exact absurd hi hidnz
    | succ k =>
      have hstep : Task.from_dict r now s =
          .ok (.ok (r.toTask now),
            { registry := dput (r.toTask now).task_id (r.toTask now) s.registry
              next_id := s.next_id }) := by
        simp [Task.from_dict, ht, hd, hp, hi, Task.init, pyIdAlloc, hst,
          TaskRecord.toTask]
      simp only [Task.loadLoop, hstep]
      rw [List.foldl_cons]
      exact ih (Task.loadStep now s r)
        (fun r' h => hval r' (List.mem_cons_of_mem _ h))

/-- A list of valid project records loads without error into the fold of the
load steps. -/
theorem project_loadLoop_valid (now : String) :
    ∀ (rs : List ProjectRecord) (s : ProjectState),
      (∀ r ∈ rs, r.valid) →
      Project.loadLoop now rs s = (none, rs.foldl (Project.loadStep now) s) := by
  intro rs
  induction rs with
  | nil => intro s _; rfl
  | cons r rs ih =>
    intro s hval
    obtain ⟨ht0, hd0, hu0, hid0, hidnz, hdd0, hps⟩ := hval r (List.mem_cons_self r _)
    obtain ⟨ti, ht⟩ := Option.isSome_iff_exists.mp ht0
    obtain ⟨de, hd⟩ := Option.isSome_iff_exists.mp hd0
    obtain ⟨uid, hu⟩ := Option.isSome_iff_exists.mp hu0
    obtain ⟨i, hi⟩ := Option.isSome_iff_exists.mp hid0
    obtain ⟨sd, hdd⟩ := Option.isSome_iff_exists.mp hdd0
    obtain ⟨dd, hparse⟩ := Option.isSome_iff_exists.mp hps
    cases i with
    | zero => exact absurd hi hidnz
    | succ k =>
      have hparse' : parseDT sd = some dd := by
        rw [hdd] at hparse
        exact hparse
      have hstep : Project.from_dict r now s =
          .ok (.ok (r.toProject now),
            { registry := dput (r.toProject now).project_id (r.toProject now)
                s.registry
              next_id := s.next_id }) := by
        simp [Project.from_dict, ht, hd, hu, hi, hdd, Project.init, pyIdAlloc,
          hparse', ProjectRecord.toProject]
      simp only [Project.loadLoop, hstep]
      rw [List.foldl_cons]
      exact ih (Project.loadStep now s r)
        (fun r' h => hval r' (List.mem_cons_of_mem _ h))

/-- Deserializing a serialized user reconstructs it exactly (the stored
timestamp is truthy, so it is not restamped). -/
theorem user_toUser_to_dict (u : User) (now : String) (h : u.created_at ≠ "") :
    UserRecord.toUser (User.to_dict u) now = u := by
  cases u with
  | mk uid nm em ca pr =>
    simp only [ne_eq] at h
    simp [User.to_dict, UserRecord.toUser, pyOrStr, pyOrList, h]

/-- Deserializing a serialized task reconstructs it exactly. -/
theorem task_toTask_to_dict (t : Task) (now : String) (h : t.created_at ≠ "") :
    TaskRecord.toTask (Task.to_dict t) now = t := by
  cases t with
  | mk tid ti de st pid au ca =>
    simp only [ne_eq] at h
    simp [Task.to_dict, TaskRecord.toTask, pyOrStr, pyOrList, h]

/-- Deserializing a serialized project reconstructs it exactly (the stored
due-date string re-parses to the original value). -/
theorem project_toProject_to_dict (p : Project) (now : String)
    (h : p.created_at ≠ "") (hdd : parseDT p.due_date.isoformat = some p.due_date) :
    ProjectRecord.toProject (Project.to_dict p) now = p := by
  cases p with
  | mk pid ti de dd uid tk ca =>
    simp only [ne_eq] at h
    simp only at hdd
    simp [Project.to_dict, ProjectRecord.toProject, pyOrStr, pyOrList, h, hdd]

/-- Save-then-load reproduces the user registry exactly. -/
theorem user_save_then_load (fs : FS UserRecord) (now : String)
    (s s₂ : UserState) (hwf : User.WFState s) :
    (User.load_all (User.save_all false fs s) now s₂).1 = none ∧
    (User.load_all (User.save_all false fs s) now s₂).2.registry = s.registry := by
  obtain ⟨hnd, hfields⟩ := hwf
  have hload_data : FileHandler.load_data (User.save_all false fs s) "users.json" =
      s.registry.map (fun p => p.2.to_dict) := by
    show FileHandler.load_data
      (dput "users.json" (FileContent.json (s.registry.map (fun p => p.2.to_dict))) fs)
      "users.json" = _
    unfold FileHandler.load_data
    rw [dget_dput_self]
  have hvalid : ∀ r ∈ s.registry.map (fun p => p.2.to_dict), r.valid := by
    intro r hr
    obtain ⟨p, hp, rfl⟩ := List.mem_map.mp hr
    obtain ⟨_, hid, _⟩ := hfields p hp
    exact ⟨rfl, rfl, rfl, by simp [User.to_dict, hid]⟩
  have h1 : User.load_all (User.save_all false fs s) now s₂ =
      (none, (s.registry.map (fun p => p.2.to_dict)).foldl (User.loadStep now) ⟨[], 1⟩) := by
    unfold User.load_all
    rw [hload_data]
    exact user_loadLoop_valid now _ _ hvalid
  rw [h1]
  refine ⟨rfl, ?_⟩
  show ((s.registry.map (fun p => p.2.to_dict)).foldl (User.loadStep now)
    ⟨[], 1⟩).registry = s.registry
  rw [user_foldl_loadStep_eq]
  show ((s.registry.map (fun p => p.2.to_dict)).map (fun r => r.toUser now)).foldl
      (fun d u => dput u.user_id u (dput u.user_id u d)) [] = s.registry
  have hus : (s.registry.map (fun p => p.2.to_dict)).map (fun r => r.toUser now) =
      s.registry.map (fun p => p.2) := by
    rw [List.map_map]
    apply List.map_eq_map_iff.mpr
    intro p hp
    obtain ⟨_, _, hca⟩ := hfields p hp
    exact user_toUser_to_dict p.2 now hca
  rw [hus]
  have hkeys : (s.registry.map (fun p => p.2)).map User.user_id = dkeys s.registry := by
    rw [List.map_map]
    apply List.map_eq_map_iff.mpr
    intro p hp
    exact ((hfields p hp).1).symm
  rw [foldl_dput2_restore User.user_id (s.registry.map (fun p => p.2)) []
    (by rw [hkeys] at *; simpa [dkeys] using hnd)]
  rw [List.nil_append, List.map_map]
  conv_rhs => rw [← List.map_id s.registry]
  apply List.map_eq_map_iff.mpr
  intro p hp
  show ((p.2).user_id, p.2) = p
  rw [← (hfields p hp).1]

/-- Save-then-load reproduces the task registry exactly. -/
theorem task_save_then_load (fs : FS TaskRecord) (now : String)
    (s s₂ : TaskState) (hwf : Task.WFState s) :
    (Task.load_all (Task.save_all false fs s) now s₂).1 = none ∧
    (Task.load_all (Task.save_all false fs s) now s₂).2.registry = s.registry := by
  obtain ⟨hnd, hfields⟩ := hwf
  have hload_data : FileHandler.load_data (Task.save_all false fs s) "tasks.json" =
      s.registry.map (fun p => p.2.to_dict) := by
    show FileHandler.load_data
      (dput "tasks.json" (FileContent.json (s.registry.map (fun p => p.2.to_dict))) fs)
      "tasks.json" = _
    unfold FileHandler.load_data
    rw [dget_dput_self]
  have hvalid : ∀ r ∈ s.registry.map (fun p => p.2.to_dict), r.valid := by
    intro r hr
    obtain ⟨p, hp, rfl⟩ := List.mem_map.mp hr
    obtain ⟨_, hid, _, hst⟩ := hfields p hp
    exact ⟨rfl, rfl, rfl, rfl, by simp [Task.to_dict, hid], by simpa [Task.to_dict] using hst⟩
  have h1 : Task.load_all (Task.save_all false fs s) now s₂ =
      (none, (s.registry.map (fun p => p.2.to_dict)).foldl (Task.loadStep now) ⟨[], 1⟩) := by
    unfold Task.load_all
    rw [hload_data]
    exact task_loadLoop_valid now _ _ hvalid
  rw [h1]
  refine ⟨rfl, ?_⟩
  show ((s.registry.map (fun p => p.2.to_dict)).foldl (Task.loadStep now)
    ⟨[], 1⟩).registry = s.registry
  rw [task_foldl_loadStep_eq]
  show ((s.registry.map (fun p => p.2.to_dict)).map (fun r => r.toTask now)).foldl
      (fun d t => dput t.task_id t (dput t.task_id t d)) [] = s.registry
  have hus : (s.registry.map (fun p => p.2.to_dict)).map (fun r => r.toTask now) =
      s.registry.map (fun p => p.2) := by
    rw [List.map_map]
    apply List.map_eq_map_iff.mpr
    intro p hp
    obtain ⟨_, _, hca, _⟩ := hfields p hp
    exact task_toTask_to_dict p.2 now hca
  rw [hus]
  have hkeys : (s.registry.map (fun p => p.2)).map Task.task_id = dkeys s.registry := by
    rw [List.map_map]
    apply List.map_eq_map_iff.mpr
    intro p hp
    exact ((hfields p hp).1).symm
  rw [foldl_dput2_restore Task.task_id (s.registry.map (fun p => p.2)) []
    (by rw [hkeys] at *; simpa [dkeys] using hnd)]
  rw [List.nil_append, List.map_map]
  conv_rhs => rw [← List.map_id s.registry]
  apply List.map_eq_map_iff.mpr
  intro p hp
  show ((p.2).task_id, p.2) = p
  rw [← (hfields p hp).1]

/-- Save-then-load reproduces the project registry exactly. -/
theorem project_save_then_load (fs : FS ProjectRecord) (now : String)
    (s s₂ : ProjectState) (hwf : Project.WFState s) :
    (Project.load_all (Project.save_all false fs s) now s₂).1 = none ∧
    (Project.load_all (Project.save_all false fs s) now s₂).2.registry = s.registry := by
  obtain ⟨hnd, hfields⟩ := hwf
  have hload_data : FileHandler.load_data (Project.save_all false fs s) "projects.json" =
      s.registry.map (fun p => p.2.to_dict) := by
    show FileHandler.load_data
      (dput "projects.json" (FileContent.json (s.registry.map (fun p => p.2.to_dict))) fs)
      "projects.json" = _
    unfold FileHandler.load_data
    rw [dget_dput_self]
  have hvalid : ∀ r ∈ s.registry.map (fun p => p.2.to_dict), r.valid := by
    intro r hr
    obtain ⟨p, hp, rfl⟩ := List.mem_map.mp hr
    obtain ⟨_, hid, _, hdd⟩ := hfields p hp
    refine ⟨rfl, rfl, rfl, rfl, by simp [Project.to_dict, hid], rfl, ?_⟩
    show (parseDT ((some p.2.due_date.isoformat).getD "")).isSome = true
    rw [Option.getD_some, hdd]
    rfl
  have h1 : Project.load_all (Project.save_all false fs s) now s₂ =
      (none, (s.registry.map (fun p => p.2.to_dict)).foldl (Project.loadStep now) ⟨[], 1⟩) := by
    unfold Project.load_all
    rw [hload_data]
    exact project_loadLoop_valid now _ _ hvalid
  rw [h1]
  refine ⟨rfl, ?_⟩
  show ((s.registry.map (fun p => p.2.to_dict)).foldl (Project.loadStep now)
    ⟨[], 1⟩).registry = s.registry
  rw [project_foldl_loadStep_eq]
  show ((s.registry.map (fun p => p.2.to_dict)).map (fun r => r.toProject now)).foldl
      (fun d q => dput q.project_id q (dput q.project_id q d)) [] = s.registry
  have hus : (s.registry.map (fun p => p.2.to_dict)).map (fun r => r.toProject now) =
      s.registry.map (fun p => p.2) := by
    rw [List.map_map]
    apply List.map_eq_map_iff.mpr
    intro p hp
    obtain ⟨_, _, hca, hdd⟩ := hfields p hp
    exact project_toProject_to_dict p.2 now hca hdd
  rw [hus]
  have hkeys : (s.registry.map (fun p => p.2)).map Project.project_id = dkeys s.registry := by
    rw [List.map_map]
    apply List.map_eq_map_iff.mpr
    intro p hp
    exact ((hfields p hp).1).symm
  rw [foldl_dput2_restore Project.project_id (s.registry.map (fun p => p.2)) []
    (by rw [hkeys] at *; simpa [dkeys] using hnd)]
  rw [List.nil_append, List.map_map]
  conv_rhs => rw [← List.map_id s.registry]
  apply List.map_eq_map_iff.mpr
  intro p hp
  show ((p.2).project_id, p.2) = p
  rw [← (hfields p hp).1]

/-! ## Claim C4 — serialize-then-deserialize is lossless -/

/-- **C4**. For every well-formed registry state (keys match entity ids, ids
distinct and truthy, timestamps non-empty, stored statuses valid, stored due
dates re-parse from their ISO form — all true of states reached by valid
operations), running `save_all` and then `load_all` over the same storage
reproduces the registry exactly: the same ids bound to entities equal in every
field, for Users, Tasks and Projects alike. -/
theorem C4_save_load_roundtrip_lossless :
    (∀ (fs : FS UserRecord) (now : String) (s s₂ : UserState), User.WFState s →
        (User.load_all (User.save_all false fs s) now s₂).1 = none ∧
        (User.load_all (User.save_all false fs s) now s₂).2.registry = s.registry) ∧
    (∀ (fs : FS TaskRecord) (now : String) (s s₂ : TaskState), Task.WFState s →
        (Task.load_all (Task.save_all false fs s) now s₂).1 = none ∧
        (Task.load_all (Task.save_all false fs s) now s₂).2.registry = s.registry) ∧
    (∀ (fs : FS ProjectRecord) (now : String) (s s₂ : ProjectState), Project.WFState s →
        (Project.load_all (Project.save_all false fs s) now s₂).1 = none ∧
        (Project.load_all (Project.save_all false fs s) now s₂).2.registry = s.registry) :=
  ⟨user_save_then_load, task_save_then_load, project_save_then_load⟩

/-- **C4** witness: concrete one-entity registries of each kind round-trip
through their files. -/
theorem C4_witness :
    (User.load_all (User.save_all false []
        ⟨[(1, ⟨1, "Ana", "a@x.c", "t1", [2]⟩)], 2⟩) "t9" ⟨[], 1⟩).2.registry =
      [(1, ⟨1, "Ana", "a@x.c", "t1", [2]⟩)] ∧
    (Task.load_all (Task.save_all false []
        ⟨[(1, ⟨1, "Write", "", "completed", 1, [1], "t1"⟩)], 2⟩) "t9" ⟨[], 1⟩).2.registry =
      [(1, ⟨1, "Write", "", "completed", 1, [1], "t1"⟩)] ∧
    (Project.load_all (Project.save_all false []
        ⟨[(1, ⟨1, "Launch", "d", ⟨2099, 1, 1, 0, 0, 0, 0⟩, 1, [1], "t1"⟩)], 2⟩)
        "t9" ⟨[], 1⟩).2.registry =
      [(1, ⟨1, "Launch", "d", ⟨2099, 1, 1, 0, 0, 0, 0⟩, 1, [1], "t1"⟩)] :=
  ⟨(C4_save_load_roundtrip_lossless.1 [] "t9"
      ⟨[(1, ⟨1, "Ana", "a@x.c", "t1", [2]⟩)], 2⟩ ⟨[], 1⟩
      (by constructor <;> decide)).2,
   (C4_save_load_roundtrip_lossless.2.1 [] "t9"
      ⟨[(1, ⟨1, "Write", "", "completed", 1, [1], "t1"⟩)], 2⟩ ⟨[], 1⟩
      (by constructor <;> decide)).2,
   (C4_save_load_roundtrip_lossless.2.2 [] "t9"
      ⟨[(1, ⟨1, "Launch", "d", ⟨2099, 1, 1, 0, 0, 0, 0⟩, 1, [1], "t1"⟩)], 2⟩ ⟨[], 1⟩
      (by constructor <;> decide)).2⟩

end PMCli
